import Mathlib

/-!
Shallow embedding of `src/StoreConnector.jsx` (the primary variant, the full
`StoreConnector` class with forwardRef/children support).  JavaScript values
that the connector inspects are modelled by the inductive `JSVal`; callables
are identified by numeric ids, and a store-bound callable produced by
`fn.bind(store)` is modelled by `JSVal.vbound fnId storeId boundRef`, where
`boundRef` is the reference identity of the bound function allocated by the
`BOUND_MAP` WeakMap cache.  Machine-level JS details that no connector code
path inspects (prototype chains, symbols, numeric keys) are out of scope.
-/

namespace StoreConnector

/-- A JavaScript value as far as the connector inspects values:
`typeof v === 'string'`, `typeof v === 'function'`, `v != null` are the only
dynamic checks performed.  `vfun id` is a callable with reference identity
`id`; `vbound fnId storeId boundRef` is the result of binding callable
`fnId` to the store `storeId`, itself a fresh callable with reference
identity `boundRef`. -/
inductive JSVal where
  | vundef
  | vnull
  | vbool (b : Bool)
  | vnum (n : Int)
  | vstr (s : String)
  | vfun (id : Nat)
  | vbound (fnId : Nat) (storeId : Nat) (boundRef : Nat)
deriving DecidableEq, Repr

/-- JS loose equality `v == null`: true exactly for `null` and `undefined`. -/
def isNullish : JSVal → Bool
  | .vundef => true
  | .vnull => true
  | _ => false

/-- The check `typeof v === 'string'`. -/
def isStringVal : JSVal → Bool
  | .vstr _ => true
  | _ => false

/-- A PropertyMap (`_propMap`): a JS object, i.e. an association of unique
string keys to values.  `Object.keys` order is the list order. -/
abbrev PMap : Type := List (String × JSVal)

/-- The check `Object.prototype.hasOwnProperty.call(_propMap, k)`. -/
def pmHasKey (m : PMap) (k : String) : Bool :=
  m.any (fun e => e.1 = k)

/-- The `type` field of a ChangeEvent as delivered to `onStoreChange`:
missing/`undefined`, a single string tag, or an array of string tags. -/
inductive JSType where
  | undef
  | str (s : String)
  | arr (ts : List String)
deriving DecidableEq, Repr

/-- JS truthiness of the `type` value: `undefined` and `''` are falsy; every
array (even `[]`) is truthy. -/
def tyTruthy : JSType → Bool
  | .undef => false
  | .str s => !(s = "")
  | .arr _ => true

/-- The normalization `if (type && !Array.isArray(type)) type = [type]`:
the tag sequence of the event (only ever consumed when `type` is truthy). -/
def normType : JSType → List String
  | .undef => []
  | .str s => [s]
  | .arr ts => ts

/-- The mutable state of one connector instance together with the listener
registrations its `onStoreChange` handler holds on stores.  Stores are
identified by reference identity (a `Nat`).  `curStore` is
`this.props._store`; `unsub` is `this.unsubscribe` (the capability closure
captures the store it was created over); `regs` is the multiset of stores on
which `addChangeListener(this.onStoreChange)` is currently registered. -/
structure Sys where
  curStore : Nat
  unmounted : Bool
  unsub : Option Nat
  regs : List Nat
deriving DecidableEq, Repr

/-- Invoking the capability
`() => (store.removeChangeListener(this.onStoreChange), delete this.unsubscribe)`
created over store `sid`: remove one registration of the handler from `sid`
(a no-op when none is present, as for an event-emitter removeListener), then
delete whatever `this.unsubscribe` currently holds. -/
def invokeUnsub (sid : Nat) (s : Sys) : Sys :=
  { s with regs := s.regs.erase sid, unsub := none }

/-- Method `subscribe(store)`: invoke the held unsubscribe capability if any, then
`store.addChangeListener(this.onStoreChange)`, then store a fresh capability
over the new store. -/
def subscribe (s : Sys) (sid : Nat) : Sys :=
  let s1 := match s.unsub with
    | some old => invokeUnsub old s
    | none => s
  { s1 with regs := s1.regs ++ [sid], unsub := some sid }

/-- Lifecycle hook `componentWillUnmount`: set `this.unmounted = true`, then invoke the
unsubscribe capability if present (the `_onUnmount` callback has no effect on
this state). -/
def componentWillUnmount (s : Sys) : Sys :=
  let s1 := { s with unmounted := true }
  match s1.unsub with
  | some old => invokeUnsub old s1
  | none => s1

/-- Lifecycle hook `componentWillReceiveProps(nextProps)`: resubscribe exactly when the new
`_store` differs by identity from the current one; afterwards the framework
installs the new props (modelled by updating `curStore`). -/
def componentWillReceiveProps (s : Sys) (next : Nat) : Sys :=
  if s.curStore ≠ next then { subscribe s next with curStore := next }
  else { s with curStore := next }

/-- Observable outcome of one `onStoreChange` invocation. -/
inductive ChangeResult where
  | rerendered
  | filtered
  | errored
  | lateUnsubscribed
  | lateNoop
deriving DecidableEq, Repr

/-- The handler `onStoreChange = ({type} = {}) => ...` of the primary variant
(src/StoreConnector.jsx lines 155-179): late-notification guard, the
missing-type error, tag normalization, and the re-render decision
`!_propMap || type.some(prop => hasOwnProperty(_propMap, prop))`. -/
def onStoreChange (s : Sys) (pm : Option PMap) (ty : JSType) : Sys × ChangeResult :=
  if s.unmounted then
    match s.unsub with
    | some old => (invokeUnsub old s, .lateUnsubscribed)
    | none => (s, .lateNoop)
  else if !(tyTruthy ty) && pm.isSome then
    (s, .errored)
  else
    let shouldUpdate := !pm.isSome || (normType ty).any (fun t => pmHasKey (pm.getD []) t)
    (s, if shouldUpdate then .rerendered else .filtered)

/-- Lifecycle/notification events a connector instance can receive. -/
inductive Ev where
  | mount
  | setProps (next : Nat)
  | unmount
  | notify (pm : Option PMap) (ty : JSType)

/-- One framework-driven step of the connector. -/
def step (s : Sys) : Ev → Sys
  | .mount => subscribe s s.curStore
  | .setProps n => componentWillReceiveProps s n
  | .unmount => componentWillUnmount s
  | .notify pm ty => (onStoreChange s pm ty).1

/-- Run a sequence of lifecycle events. -/
def run (s : Sys) (evs : List Ev) : Sys :=
  evs.foldl step s

/-- A freshly constructed, not yet mounted connector over store `sid`. -/
def initSys (sid : Nat) : Sys :=
  ⟨sid, false, none, []⟩

/-- Subscription invariant: the live registrations are exactly the store the
held unsubscribe capability (if any) was created over. -/
def Inv (s : Sys) : Prop :=
  s.regs = s.unsub.toList

/-- The re-render condition exactly as claim C1 states it: the map is empty
or absent, or some tag of the event type sequence is a key of the map. -/
def claimRerender (pm : Option PMap) (ty : JSType) : Bool :=
  (pm.getD []).isEmpty || (normType ty).any (fun t => pmHasKey (pm.getD []) t)

/-- An external Store collaborator: reference identity plus `get(key)`. -/
structure Store where
  sid : Nat
  get : String → JSVal

/-- The module-level `BOUND_MAP` WeakMap-of-WeakMaps, flattened: an
association from (store identity, callable identity) to the reference
identity of the cached bound function, plus a counter allocating fresh
references for newly created bound functions. -/
structure BindCache where
  entries : List (Nat × Nat × Nat)
  next : Nat
deriving DecidableEq, Repr

/-- The cache before any bound function has been created. -/
def emptyCache : BindCache := ⟨[], 0⟩

/-- Cache lookup for (store `s0`, callable `f0`). -/
def findBound : List (Nat × Nat × Nat) → Nat → Nat → Option Nat
  | [], _, _ => none
  | (s, f, b) :: t, s0, f0 => if s = s0 ∧ f = f0 then some b else findBound t s0 f0

/-- Function `getBoundFunction(fn, scope)`: return the cached bound function for
(scope, fn), creating and caching `fn.bind(scope)` — a fresh reference —
on a miss. -/
def getBoundFunction (fnId scopeId : Nat) (c : BindCache) : Nat × BindCache :=
  match findBound c.entries scopeId fnId with
  | some b => (b, c)
  | none => (c.next, ⟨c.entries ++ [(scopeId, fnId, c.next)], c.next + 1⟩)

/-- The check `typeof v === 'function'` for values a store returns (callables held by
a store are modelled as `vfun`); extracts the callable identity. -/
def asFun : JSVal → Option Nat
  | .vfun i => some i
  | _ => none

/-- Calling a projected store-bound function: yields the underlying callable
and the `this` context it executes with (`fn.bind(scope)` fixes `this` to the
store it was bound over). -/
def invoke : JSVal → Option (Nat × Nat)
  | .vbound f s _ => some (f, s)
  | _ => none

/-- Read `obj[x]` on a JS object modelled as an association list with unique keys. -/
def getKey : List (String × JSVal) → String → Option JSVal
  | [], _ => none
  | (k, v) :: t, x => if k = x then some v else getKey t x

/-- Assignment `obj[x] = v`. -/
def setKey : List (String × JSVal) → String → JSVal → List (String × JSVal)
  | [], x, v => [(x, v)]
  | (k, w) :: t, x, v => if k = x then (k, v) :: t else (k, w) :: setKey t x v

/-- Deletion `delete obj[x]`. -/
def delKey : List (String × JSVal) → String → List (String × JSVal)
  | [], _ => []
  | (k, v) :: t, x => if k = x then delKey t x else (k, v) :: delKey t x

/-- A React element: a node type and its explicit props. -/
structure Element where
  tag : Nat
  eprops : List (String × JSVal)
deriving DecidableEq, Repr

/-- The props one `StoreConnector` instance received, as split by the
destructuring `const {_component, _forwardedRef: ref, _store, _propMap = {},
...others} = this.props`.  The rest-bag `others` holds every remaining prop
(it may contain `_onMount`, `_onUnmount`, or a stray string-keyed entry);
the `children` elements are kept alongside since only `render` consumes
them structurally. -/
structure ConnProps where
  _store : Store
  _propMap : Option PMap
  _component : Option Nat
  _forwardedRef : JSVal
  children : List Element
  others : List (String × JSVal)

/-- The list `Object.keys(StoreConnector.propTypes)` in declaration order; the
deletion loop skips `children` in component mode. -/
def privateKeys (componentMode : Bool) : List String :=
  ["_store", "_component", "_propMap", "_onMount", "_onUnmount"] ++
    (if componentMode then [] else ["children"]) ++ ["_forwardedRef"]

/-- One iteration of the `for (let key of keys)` loop of `getPropsFromMap`:
a string value is a destination name fed from the store (callables are
replaced by their cached store-bound version, threading the cache); a
non-null non-string value is assigned verbatim under the entry's own key;
a nullish value assigns nothing. -/
def projectEntry (store : Store) (st : List (String × JSVal) × BindCache)
    (e : String × JSVal) : List (String × JSVal) × BindCache :=
  match e.2 with
  | .vstr dest =>
    match asFun (store.get e.1) with
    | some i =>
      let r := getBoundFunction i store.sid st.2
      (setKey st.1 dest (.vbound i store.sid r.1), r.2)
    | none => (setKey st.1 dest (store.get e.1), st.2)
  | _ => if isNullish e.2 then st else (setKey st.1 e.1 e.2, st.2)

/-- The whole `_propMap` loop. -/
def applyMap (store : Store) (m : PMap)
    (st : List (String × JSVal) × BindCache) : List (String × JSVal) × BindCache :=
  List.foldl (projectEntry store) st m

/-- Method `getPropsFromMap()`: start from the rest-bag plus the forwarded `ref`,
delete the connector's own configuration keys, then project the `_propMap`
entries, threading the bound-function cache. -/
def getPropsFromMap (p : ConnProps) (c : BindCache) :
    List (String × JSVal) × BindCache :=
  let pm := p._propMap.getD []
  let base0 := setKey p.others "ref" p._forwardedRef
  let base := (privateKeys p._component.isSome).foldl delKey base0
  applyMap p._store pm (base, c)

/-- What `render()` produced. -/
inductive Rendered where
  | createdElement (component : Nat) (props : List (String × JSVal))
  | clonedElement (e : Element)
deriving DecidableEq, Repr

/-- Model of `React.cloneElement(e, props)`: the original element's explicit props,
overridden where the projected props collide. -/
def cloneElement (e : Element) (props : List (String × JSVal)) : Element :=
  ⟨e.tag, props.foldl (fun acc kv => setKey acc kv.1 kv.2) e.eprops⟩

/-- Model of `React.Children.only(children)`: the single child, or a thrown error. -/
def childrenOnly : List Element → Except String Element
  | [e] => Except.ok e
  | _ => Except.error "React.Children.only expected to receive a single React element child."

/-- Method `render()`: component mode renders the wrapped component with the
projected props; single-child mode clones the unique child with the
projected props merged in, throwing when the child count is not one. -/
def render (p : ConnProps) (c : BindCache) : Except String Rendered :=
  let props := (getPropsFromMap p c).1
  match p._component with
  | some comp => Except.ok (.createdElement comp props)
  | none => (childrenOnly p.children).map (fun e => .clonedElement (cloneElement e props))

/-- Does processing this `_propMap` entry assign the key `x`?  A string
value writes its destination name; a non-null non-string value writes the
entry's own key; a nullish value writes nothing. -/
def writesKey (x : String) : String × JSVal → Bool
  | (_, .vstr d) => d = x
  | (k, v) => !(isNullish v) && k = x

/-- Store with `get('X') -> 42` used in concrete runs. -/
def storeX : Store :=
  ⟨1, fun k => if k = "X" then JSVal.vnum 42 else JSVal.vundef⟩

/-- A store holding nothing. -/
def storeEmpty : Store := ⟨2, fun _ => JSVal.vundef⟩

/-- A store whose `fn` key holds a callable (id 5). -/
def storeFn : Store :=
  ⟨3, fun k => if k = "fn" then JSVal.vfun 5 else JSVal.vundef⟩

/-- C6 counterexample props: the spec example `PropertyMap
{literalKey: 'someLiteral'}`, whose mapped value is a string. -/
def propsC6 : ConnProps :=
  ⟨storeEmpty, some [("literalKey", JSVal.vstr "someLiteral")], some 5,
    JSVal.vundef, [], []⟩

/-- Props with a genuine (non-string, non-null) literal map entry. -/
def propsC6w : ConnProps :=
  ⟨storeEmpty, some [("literalKey", JSVal.vnum 99)], some 5, JSVal.vundef, [], []⟩

/-- C7 counterexample props: the connector also received a pass-through prop
named `X` while mapping store key `X` to `value`. -/
def propsC7 : ConnProps :=
  ⟨storeX, some [("X", JSVal.vstr "value")], some 5, JSVal.vundef, [],
    [("X", JSVal.vnum 7)]⟩

/-- The claim C7 scenario proper: no stray pass-through props. -/
def propsC7w : ConnProps :=
  ⟨storeX, some [("X", JSVal.vstr "value")], some 5, JSVal.vundef, [], []⟩

/-- Props mapping the callable store key `fn` to `onClick`. -/
def propsC8 : ConnProps :=
  ⟨storeFn, some [("fn", JSVal.vstr "onClick")], some 5, JSVal.vundef, [], []⟩

/-- A concrete child element. -/
def elemA : Element := ⟨10, [("x", JSVal.vnum 1)]⟩

/-- Single-child mode with exactly one child. -/
def propsC9 : ConnProps :=
  ⟨storeEmpty, none, none, JSVal.vundef, [elemA], []⟩

/-- Single-child mode with zero children. -/
def propsC9zero : ConnProps :=
  ⟨storeEmpty, none, none, JSVal.vundef, [], []⟩

/-- Single-child mode with two children. -/
def propsC9two : ConnProps :=
  ⟨storeEmpty, none, none, JSVal.vundef, [elemA, ⟨11, []⟩], []⟩

/-- An arbitrary mounted, subscribed connector state used for concrete runs. -/
def sysMounted : Sys :=
  ⟨1, false, some 1, [1]⟩

/-- An unmounted connector that still holds its unsubscribe capability
(a change notification raced `componentWillUnmount`). -/
def sysLate : Sys :=
  ⟨1, true, some 1, [1]⟩

end StoreConnector

namespace StoreConnector

/-- C1 (counterexample): with a configured but empty PropertyMap and a change
event of type `'x'`, the claimed condition (re-render because the map is
empty) holds, yet the handler filters the event out and does not re-render:
`{}` is truthy in JS, so an empty map does not behave like an absent one. -/
theorem claim_rerender_counterexample :
    claimRerender (some []) (JSType.str "x") = true ∧
    (onStoreChange sysMounted (some []) (JSType.str "x")).2 = ChangeResult.filtered := by
  decide

/-- C1 (amended): on a mounted connector, a re-render is triggered iff the
PropertyMap is absent, or the event type is truthy and at least one tag of
its (normalized) sequence is a key of the map.  An empty-but-present map
therefore never re-renders. -/
theorem connector_rerender_iff (s : Sys) (pm : Option PMap) (ty : JSType)
    (h : s.unmounted = false) :
    ((onStoreChange s pm ty).2 = ChangeResult.rerendered) ↔
      (pm = none ∨ (tyTruthy ty = true ∧
        (normType ty).any (fun t => pmHasKey (pm.getD []) t) = true)) := by
  unfold onStoreChange
  rw [h]
  cases pm with
  | none => simp
  | some m =>
    cases hty : tyTruthy ty with
    | false => simp [hty]
    | true =>
      cases hany : (normType ty).any (fun t => pmHasKey m t) <;>
        simp [hty, hany]

/-- Witness for C1's amended theorem at a concrete mounted state. -/
theorem connector_rerender_iff_witness :
    (onStoreChange sysMounted (some [("a", JSVal.vnum 1)]) (JSType.str "a")).2 =
      ChangeResult.rerendered :=
  (connector_rerender_iff sysMounted (some [("a", JSVal.vnum 1)]) (JSType.str "a")
    rfl).mpr (by decide)

/-- C2: a change notification with no `type` delivered to a mounted connector
with a configured PropertyMap raises `No type on change.` and does not
re-render. -/
theorem missing_type_errors (s : Sys) (m : PMap) (h : s.unmounted = false) :
    onStoreChange s (some m) JSType.undef = (s, ChangeResult.errored) := by
  simp [onStoreChange, h, tyTruthy]

/-- Witness for C2 at a concrete mounted state. -/
theorem missing_type_errors_witness :
    onStoreChange sysMounted (some [("a", JSVal.vnum 1)]) JSType.undef =
      (sysMounted, ChangeResult.errored) :=
  missing_type_errors sysMounted [("a", JSVal.vnum 1)] rfl

/-- C3: a change notification delivered after unmount never re-renders (and
never reaches the projection or the missing-type error); it invokes the held
unsubscribe capability when one is still active, and is a no-op otherwise. -/
theorem late_notification_unsubscribes (s : Sys) (pm : Option PMap) (ty : JSType)
    (h : s.unmounted = true) :
    ((onStoreChange s pm ty).2 ≠ ChangeResult.rerendered ∧
     (onStoreChange s pm ty).2 ≠ ChangeResult.errored) ∧
    (∀ old, s.unsub = some old →
      onStoreChange s pm ty = (invokeUnsub old s, ChangeResult.lateUnsubscribed)) ∧
    (s.unsub = none → onStoreChange s pm ty = (s, ChangeResult.lateNoop)) := by
  unfold onStoreChange
  rw [h]
  cases hu : s.unsub <;> simp [hu]

/-- Witness for C3: a late notification on `sysLate` unsubscribes. -/
theorem late_notification_unsubscribes_witness :
    onStoreChange sysLate (some [("a", JSVal.vnum 1)]) (JSType.str "a") =
      (invokeUnsub 1 sysLate, ChangeResult.lateUnsubscribed) :=
  (late_notification_unsubscribes sysLate (some [("a", JSVal.vnum 1)])
    (JSType.str "a") rfl).2.1 1 rfl

/-- C10: the missing-type check tests JS falsiness of `type`, not absence of
the field: an event whose `type` is the empty string (present but falsy)
raises the missing-type error on a mounted connector with a configured
PropertyMap, even when `''` is itself a key of the map. -/
theorem falsy_type_errors (s : Sys) (m : PMap) (h : s.unmounted = false) :
    onStoreChange s (some m) (JSType.str "") = (s, ChangeResult.errored) := by
  simp [onStoreChange, h, tyTruthy]

/-- Witness for C10: even with `''` a key of the map, the handler errors
instead of matching it. -/
theorem falsy_type_errors_witness :
    onStoreChange sysMounted (some [("", JSVal.vnum 0)]) (JSType.str "") =
      (sysMounted, ChangeResult.errored) :=
  falsy_type_errors sysMounted [("", JSVal.vnum 0)] rfl

theorem inv_initSys (sid : Nat) : Inv (initSys sid) := rfl

theorem inv_subscribe (s : Sys) (sid : Nat) (h : Inv s) : Inv (subscribe s sid) := by
  unfold Inv at h ⊢
  cases hu : s.unsub with
  | none =>
    rw [hu] at h
    simp [subscribe, hu, h]
  | some old =>
    rw [hu] at h
    simp [subscribe, hu, invokeUnsub, h]

theorem inv_componentWillUnmount (s : Sys) (h : Inv s) : Inv (componentWillUnmount s) := by
  unfold Inv at h ⊢
  cases hu : s.unsub with
  | none =>
    rw [hu] at h
    simp [componentWillUnmount, hu, h]
  | some old =>
    rw [hu] at h
    simp [componentWillUnmount, hu, invokeUnsub, h]

theorem inv_componentWillReceiveProps (s : Sys) (n : Nat) (h : Inv s) :
    Inv (componentWillReceiveProps s n) := by
  unfold componentWillReceiveProps
  by_cases hc : s.curStore ≠ n
  · rw [if_pos hc]
    have h1 := inv_subscribe s n h
    unfold Inv at h1 ⊢
    simpa using h1
  · rw [if_neg hc]
    unfold Inv at h ⊢
    simpa using h

theorem inv_onStoreChange (s : Sys) (pm : Option PMap) (ty : JSType) (h : Inv s) :
    Inv (onStoreChange s pm ty).1 := by
  unfold onStoreChange
  by_cases hm : s.unmounted
  · cases hu : s.unsub with
    | none => simpa [hm, hu] using h
    | some old =>
      unfold Inv at h ⊢
      rw [hu] at h
      simp [hm, hu, invokeUnsub, h]
  · simp only [hm, if_neg, Bool.false_eq_true, if_false]
    split
    · exact h
    · exact h

theorem inv_step (s : Sys) (ev : Ev) (h : Inv s) : Inv (step s ev) := by
  cases ev with
  | mount => exact inv_subscribe s s.curStore h
  | setProps n => exact inv_componentWillReceiveProps s n h
  | unmount => exact inv_componentWillUnmount s h
  | notify pm ty => exact inv_onStoreChange s pm ty h

theorem inv_run (s : Sys) (evs : List Ev) (h : Inv s) : Inv (run s evs) := by
  induction evs generalizing s with
  | nil => exact h
  | cons ev t ih => exact ih (step s ev) (inv_step s ev h)

theorem regs_length_of_inv (s : Sys) (h : Inv s) : s.regs.length ≤ 1 := by
  unfold Inv at h
  rw [h]
  cases s.unsub <;> simp

theorem subscribe_regs_of_inv (s : Sys) (sid : Nat) (h : Inv s) :
    (subscribe s sid).regs = [sid] ∧ (subscribe s sid).unsub = some sid := by
  unfold Inv at h
  cases hu : s.unsub with
  | none =>
    rw [hu] at h
    simp [subscribe, hu, h]
  | some old =>
    rw [hu] at h
    simp [subscribe, hu, invokeUnsub, h]

/-- C4: starting from a fresh connector, after any sequence of lifecycle
events at most one listener registration is live; subscribing always first
clears the old subscription (ending with exactly the new registration and a
capability over the new store); and receiving props resubscribes exactly when
the new store differs by identity from the current one. -/
theorem single_subscription (sid n : Nat) (evs : List Ev) :
    (run (initSys sid) evs).regs.length ≤ 1 ∧
    (subscribe (run (initSys sid) evs) n).regs = [n] ∧
    (subscribe (run (initSys sid) evs) n).unsub = some n ∧
    ((run (initSys sid) evs).curStore = n →
      step (run (initSys sid) evs) (Ev.setProps n) =
        { run (initSys sid) evs with curStore := n }) ∧
    ((run (initSys sid) evs).curStore ≠ n →
      step (run (initSys sid) evs) (Ev.setProps n) =
        { subscribe (run (initSys sid) evs) n with curStore := n }) := by
  have hinv := inv_run (initSys sid) evs (inv_initSys sid)
  refine ⟨regs_length_of_inv _ hinv, (subscribe_regs_of_inv _ n hinv).1,
    (subscribe_regs_of_inv _ n hinv).2, ?_, ?_⟩
  · intro hc
    simp [step, componentWillReceiveProps, hc]
  · intro hc
    simp [step, componentWillReceiveProps, hc]

/-- Witness for C4 at a concrete event sequence (mount, store switch, a
notification, unmount, a late notification). -/
theorem single_subscription_witness :
    (run (initSys 1)
      [Ev.mount, Ev.setProps 2, Ev.notify (some [("a", JSVal.vnum 1)]) (JSType.str "a"),
       Ev.unmount, Ev.notify none JSType.undef]).regs.length ≤ 1 :=
  (single_subscription 1 2
    [Ev.mount, Ev.setProps 2, Ev.notify (some [("a", JSVal.vnum 1)]) (JSType.str "a"),
     Ev.unmount, Ev.notify none JSType.undef]).1

/-- C5: when the handler is registered at most once on the captured store
(always true under the subscription invariant), invoking the unsubscribe
capability twice has exactly the same effect on the store's listener
registrations and on the connector's state as invoking it once: the second
invocation is a no-op (and, being total, never an error). -/
theorem unsubscribe_idempotent (s : Sys) (sid : Nat) (h : s.regs.count sid ≤ 1) :
    invokeUnsub sid (invokeUnsub sid s) = invokeUnsub sid s := by
  have h0 : (s.regs.erase sid).count sid = 0 := by
    rw [List.count_erase_self]
    omega
  have h1 : sid ∉ s.regs.erase sid := List.count_eq_zero.mp h0
  simp [invokeUnsub, List.erase_of_not_mem h1]

/-- Witness for C5 on a concrete subscribed connector. -/
theorem unsubscribe_idempotent_witness :
    invokeUnsub 1 (invokeUnsub 1 sysMounted) = invokeUnsub 1 sysMounted :=
  unsubscribe_idempotent sysMounted 1 (by decide)

theorem getKey_setKey_self (l : List (String × JSVal)) (x : String) (v : JSVal) :
    getKey (setKey l x v) x = some v := by
  induction l with
  | nil => simp [setKey, getKey]
  | cons e t ih =>
    obtain ⟨k, w⟩ := e
    by_cases hk : k = x
    · simp [setKey, getKey, hk]
    · simp [setKey, getKey, hk, ih]

theorem getKey_setKey_ne (l : List (String × JSVal)) (x y : String) (v : JSVal)
    (h : y ≠ x) : getKey (setKey l x v) y = getKey l y := by
  induction l with
  | nil => simp [setKey, getKey, Ne.symm h]
  | cons e t ih =>
    obtain ⟨k, w⟩ := e
    by_cases hk : k = x
    · subst hk
      simp [setKey, getKey, Ne.symm h]
    · simp [setKey, getKey, hk, ih]

theorem getKey_delKey (l : List (String × JSVal)) (x y : String) :
    getKey (delKey l x) y = if y = x then none else getKey l y := by
  induction l with
  | nil => simp [delKey, getKey]
  | cons e t ih =>
    obtain ⟨k, w⟩ := e
    by_cases hk : k = x
    · subst hk
      have hd : delKey ((k, w) :: t) k = delKey t k := by simp [delKey]
      rw [hd, ih]
      by_cases hy : y = k
      · simp [hy]
      · simp [getKey, hy, Ne.symm hy]
    · simp only [delKey, if_neg hk, getKey]
      by_cases hy : k = y
      · subst hy
        simp [hk]
      · simp [hy, ih]

theorem getKey_foldl_delKey (ks : List String) (l : List (String × JSVal))
    (y : String) :
    getKey (ks.foldl delKey l) y = if y ∈ ks then none else getKey l y := by
  induction ks generalizing l with
  | nil => simp
  | cons k t ih =>
    rw [List.foldl_cons, ih]
    by_cases hy : y ∈ t
    · simp [hy]
    · simp [hy, getKey_delKey, List.mem_cons]

theorem projectEntry_literal (store : Store)
    (st : List (String × JSVal) × BindCache) (k : String) (v : JSVal)
    (hstr : isStringVal v = false) (hnn : isNullish v = false) :
    projectEntry store st (k, v) = (setKey st.1 k v, st.2) := by
  cases v <;> simp_all [projectEntry, isStringVal, isNullish]

theorem projectEntry_nullish (store : Store)
    (st : List (String × JSVal) × BindCache) (k : String) (v : JSVal)
    (hnn : isNullish v = true) :
    projectEntry store st (k, v) = st := by
  cases v <;> simp_all [projectEntry, isNullish]

theorem projectEntry_str_fun (store : Store)
    (st : List (String × JSVal) × BindCache) (k dest : String) (i : Nat)
    (hg : store.get k = JSVal.vfun i) :
    projectEntry store st (k, JSVal.vstr dest) =
      (setKey st.1 dest
        (JSVal.vbound i store.sid (getBoundFunction i store.sid st.2).1),
       (getBoundFunction i store.sid st.2).2) := by
  simp [projectEntry, hg, asFun]

theorem projectEntry_str_raw (store : Store)
    (st : List (String × JSVal) × BindCache) (k dest : String)
    (hg : asFun (store.get k) = none) :
    projectEntry store st (k, JSVal.vstr dest) =
      (setKey st.1 dest (store.get k), st.2) := by
  simp [projectEntry, hg]

theorem asFun_eq_some (v : JSVal) (i : Nat) (h : asFun v = some i) :
    v = JSVal.vfun i := by
  cases v <;> simp_all [asFun]

theorem getKey_projectEntry_of_not_writes (store : Store)
    (st : List (String × JSVal) × BindCache) (e : String × JSVal) (x : String)
    (h : writesKey x e = false) :
    getKey (projectEntry store st e).1 x = getKey st.1 x := by
  obtain ⟨k, v⟩ := e
  cases v with
  | vstr d =>
    have hd : d ≠ x := by simpa [writesKey] using h
    cases hg : asFun (store.get k) with
    | some i =>
      rw [projectEntry_str_fun store st k d i (asFun_eq_some _ i hg)]
      exact getKey_setKey_ne _ _ _ _ (Ne.symm hd)
    | none =>
      rw [projectEntry_str_raw store st k d hg]
      exact getKey_setKey_ne _ _ _ _ (Ne.symm hd)
  | vundef => rw [projectEntry_nullish store st k JSVal.vundef rfl]
  | vnull => rw [projectEntry_nullish store st k JSVal.vnull rfl]
  | vbool b =>
    have hk : k ≠ x := by simpa [writesKey, isNullish] using h
    rw [projectEntry_literal store st k (JSVal.vbool b) rfl rfl]
    exact getKey_setKey_ne _ _ _ _ (Ne.symm hk)
  | vnum n =>
    have hk : k ≠ x := by simpa [writesKey, isNullish] using h
    rw [projectEntry_literal store st k (JSVal.vnum n) rfl rfl]
    exact getKey_setKey_ne _ _ _ _ (Ne.symm hk)
  | vfun i =>
    have hk : k ≠ x := by simpa [writesKey, isNullish] using h
    rw [projectEntry_literal store st k (JSVal.vfun i) rfl rfl]
    exact getKey_setKey_ne _ _ _ _ (Ne.symm hk)
  | vbound f s b =>
    have hk : k ≠ x := by simpa [writesKey, isNullish] using h
    rw [projectEntry_literal store st k (JSVal.vbound f s b) rfl rfl]
    exact getKey_setKey_ne _ _ _ _ (Ne.symm hk)

theorem getKey_applyMap_of_not_writes (store : Store) (m : PMap)
    (st : List (String × JSVal) × BindCache) (x : String)
    (h : ∀ e ∈ m, writesKey x e = false) :
    getKey (applyMap store m st).1 x = getKey st.1 x := by
  revert h
  induction m generalizing st with
  | nil =>
    intro h
    rfl
  | cons e t ih =>
    intro h
    have he := h e (List.mem_cons_self e t)
    have ht : ∀ e2 ∈ t, writesKey x e2 = false :=
      fun e2 hm => h e2 (List.mem_cons_of_mem e hm)
    calc getKey (applyMap store (e :: t) st).1 x
        = getKey (applyMap store t (projectEntry store st e)).1 x := rfl
      _ = getKey (projectEntry store st e).1 x := ih (projectEntry store st e) ht
      _ = getKey st.1 x := getKey_projectEntry_of_not_writes store st e x he

theorem applyMap_append (store : Store) (m1 m2 : PMap)
    (st : List (String × JSVal) × BindCache) :
    applyMap store (m1 ++ m2) st = applyMap store m2 (applyMap store m1 st) := by
  simp [applyMap, List.foldl_append]

theorem applyMap_cons (store : Store) (e : String × JSVal) (m : PMap)
    (st : List (String × JSVal) × BindCache) :
    applyMap store (e :: m) st = applyMap store m (projectEntry store st e) := rfl

theorem getPropsFromMap_eq (p : ConnProps) (c : BindCache) :
    getPropsFromMap p c =
      applyMap p._store (p._propMap.getD [])
        ((privateKeys p._component.isSome).foldl delKey
          (setKey p.others "ref" p._forwardedRef), c) := rfl

theorem findBound_append_of_some (l t : List (Nat × Nat × Nat)) (s f b : Nat)
    (h : findBound l s f = some b) : findBound (l ++ t) s f = some b := by
  induction l with
  | nil => simp [findBound] at h
  | cons e u ih =>
    obtain ⟨s1, f1, b1⟩ := e
    by_cases hc : s1 = s ∧ f1 = f
    · simp only [List.cons_append, findBound, if_pos hc] at h ⊢
      exact h
    · simp only [List.cons_append, findBound, if_neg hc] at h ⊢
      exact ih h

theorem findBound_append_of_none (l t : List (Nat × Nat × Nat)) (s f : Nat)
    (h : findBound l s f = none) : findBound (l ++ t) s f = findBound t s f := by
  induction l with
  | nil => simp
  | cons e u ih =>
    obtain ⟨s1, f1, b1⟩ := e
    by_cases hc : s1 = s ∧ f1 = f
    · simp only [findBound, if_pos hc] at h
      exact absurd h (by simp)
    · simp only [List.cons_append, findBound, if_neg hc] at h ⊢
      exact ih h

theorem getBoundFunction_entries (i sid : Nat) (c : BindCache) :
    ∃ t, (getBoundFunction i sid c).2.entries = c.entries ++ t := by
  unfold getBoundFunction
  cases h : findBound c.entries sid i with
  | some b => exact ⟨[], by simp⟩
  | none => exact ⟨[(sid, i, c.next)], rfl⟩

theorem getBoundFunction_found (i sid : Nat) (c : BindCache) :
    findBound (getBoundFunction i sid c).2.entries sid i =
      some (getBoundFunction i sid c).1 := by
  unfold getBoundFunction
  cases h : findBound c.entries sid i with
  | some b => simpa using h
  | none =>
    have h2 := findBound_append_of_none c.entries [(sid, i, c.next)] sid i h
    simpa [findBound] using h2

theorem getBoundFunction_of_found (i sid : Nat) (c : BindCache) (b : Nat)
    (h : findBound c.entries sid i = some b) :
    getBoundFunction i sid c = (b, c) := by
  unfold getBoundFunction
  rw [h]

theorem projectEntry_entries (store : Store)
    (st : List (String × JSVal) × BindCache) (e : String × JSVal) :
    ∃ t, (projectEntry store st e).2.entries = st.2.entries ++ t := by
  obtain ⟨k, v⟩ := e
  cases v with
  | vstr d =>
    cases hg : asFun (store.get k) with
    | some i =>
      rw [projectEntry_str_fun store st k d i (asFun_eq_some _ i hg)]
      exact getBoundFunction_entries i store.sid st.2
    | none =>
      rw [projectEntry_str_raw store st k d hg]
      exact ⟨[], by simp⟩
  | vundef => exact ⟨[], by rw [projectEntry_nullish store st k JSVal.vundef rfl]; simp⟩
  | vnull => exact ⟨[], by rw [projectEntry_nullish store st k JSVal.vnull rfl]; simp⟩
  | vbool b => exact ⟨[], by rw [projectEntry_literal store st k (JSVal.vbool b) rfl rfl]; simp⟩
  | vnum n => exact ⟨[], by rw [projectEntry_literal store st k (JSVal.vnum n) rfl rfl]; simp⟩
  | vfun i => exact ⟨[], by rw [projectEntry_literal store st k (JSVal.vfun i) rfl rfl]; simp⟩
  | vbound f s b =>
    exact ⟨[], by rw [projectEntry_literal store st k (JSVal.vbound f s b) rfl rfl]; simp⟩

theorem applyMap_entries (store : Store) (m : PMap)
    (st : List (String × JSVal) × BindCache) :
    ∃ t, (applyMap store m st).2.entries = st.2.entries ++ t := by
  induction m generalizing st with
  | nil => exact ⟨[], by simp [applyMap]⟩
  | cons e u ih =>
    obtain ⟨t1, h1⟩ := projectEntry_entries store st e
    obtain ⟨t2, h2⟩ := ih (projectEntry store st e)
    refine ⟨t1 ++ t2, ?_⟩
    rw [applyMap_cons, h2, h1, List.append_assoc]

theorem applyMap_vstr_fun (store : Store) (u w : PMap) (K D : String) (i : Nat)
    (st : List (String × JSVal) × BindCache)
    (hg : store.get K = JSVal.vfun i)
    (hw : ∀ e ∈ w, writesKey D e = false) :
    getKey (applyMap store (u ++ (K, JSVal.vstr D) :: w) st).1 D =
      some (JSVal.vbound i store.sid
        (getBoundFunction i store.sid (applyMap store u st).2).1) ∧
    ∃ t, (applyMap store (u ++ (K, JSVal.vstr D) :: w) st).2.entries =
      (getBoundFunction i store.sid (applyMap store u st).2).2.entries ++ t := by
  have hpe := projectEntry_str_fun store (applyMap store u st) K D i hg
  constructor
  · rw [applyMap_append, applyMap_cons,
      getKey_applyMap_of_not_writes store w _ D hw, hpe]
    exact getKey_setKey_self _ _ _
  · obtain ⟨t2, h2⟩ :=
      applyMap_entries store w (projectEntry store (applyMap store u st) (K, JSVal.vstr D))
    refine ⟨t2, ?_⟩
    rw [applyMap_append, applyMap_cons, h2, hpe]

theorem applyMap_vstr_fun_again (store : Store) (u w : PMap) (K D : String)
    (i : Nat) (base base2 : List (String × JSVal)) (c0 c1 : BindCache)
    (t0 : List (Nat × Nat × Nat))
    (hg : store.get K = JSVal.vfun i)
    (hw : ∀ e ∈ w, writesKey D e = false)
    (hext : c1.entries =
      (getBoundFunction i store.sid (applyMap store u (base, c0)).2).2.entries ++ t0) :
    getKey (applyMap store (u ++ (K, JSVal.vstr D) :: w) (base2, c1)).1 D =
      some (JSVal.vbound i store.sid
        (getBoundFunction i store.sid (applyMap store u (base, c0)).2).1) := by
  have h2 := applyMap_vstr_fun store u w K D i (base2, c1) hg hw
  obtain ⟨t2, ht2⟩ := applyMap_entries store u (base2, c1)
  have ht2' : (applyMap store u (base2, c1)).2.entries = c1.entries ++ t2 := ht2
  have hf1 := getBoundFunction_found i store.sid (applyMap store u (base, c0)).2
  have hf2 : findBound (applyMap store u (base2, c1)).2.entries store.sid i =
      some (getBoundFunction i store.sid (applyMap store u (base, c0)).2).1 := by
    rw [ht2', hext, List.append_assoc]
    exact findBound_append_of_some _ _ _ _ _ hf1
  rw [h2.1, getBoundFunction_of_found i store.sid _ _ hf2]

/-- C6 (counterexample): with the spec's own example map
`{literalKey: 'someLiteral'}` the code treats the string value as a
destination name, so the projection does NOT yield
`{literalKey: 'someLiteral'}`: no `literalKey` prop exists, and
`someLiteral` is fed from the store instead. -/
theorem literal_claim_counterexample :
    getKey (getPropsFromMap propsC6 emptyCache).1 "literalKey" = none ∧
    getKey (getPropsFromMap propsC6 emptyCache).1 "someLiteral" =
      some JSVal.vundef := by
  decide

/-- C6 (amended): a PropertyMap entry whose value is a non-string, non-null
literal (not overwritten by a later entry) is projected verbatim under the
entry's own key, bypassing the store; a string value is instead always
treated as a destination name fed from the store. -/
theorem literal_entry_projects_verbatim (p : ConnProps) (c : BindCache)
    (u w : PMap) (K : String) (v : JSVal)
    (hm : p._propMap = some (u ++ (K, v) :: w))
    (hstr : isStringVal v = false) (hnn : isNullish v = false)
    (hw : ∀ e ∈ w, writesKey K e = false) :
    getKey (getPropsFromMap p c).1 K = some v := by
  rw [getPropsFromMap_eq, hm, Option.getD_some, applyMap_append, applyMap_cons,
    getKey_applyMap_of_not_writes _ w _ K hw,
    projectEntry_literal _ _ K v hstr hnn]
  exact getKey_setKey_self _ _ _

/-- Witness for C6's amended theorem: the literal `99` is passed through
verbatim under its own key. -/
theorem literal_entry_projects_verbatim_witness :
    getKey (getPropsFromMap propsC6w emptyCache).1 "literalKey" =
      some (JSVal.vnum 99) :=
  literal_entry_projects_verbatim propsC6w emptyCache [] [] "literalKey"
    (JSVal.vnum 99) rfl rfl rfl (by simp)

/-- C7 (counterexample): the connector received a pass-through prop named
`X` while its map sends store key `X` to `value`; the projected props then
do contain the key `X` (bound to the pass-through value), contradicting the
claim that `K` itself never appears. -/
theorem mapped_entry_counterexample :
    getKey (getPropsFromMap propsC7 emptyCache).1 "X" = some (JSVal.vnum 7) ∧
    getKey (getPropsFromMap propsC7 emptyCache).1 "value" =
      some (JSVal.vnum 42) := by
  decide

/-- C7 (amended): for a map entry sending store key `K` to destination `D`
(with `K ≠ D`, `K ≠ 'ref'`, `K` not among the connector's pass-through
props, no other map entry writing `K`, no later entry writing `D`, and the
store value for `K` not callable), the projection contains `D` bound to the
store's value for `K` and does not contain `K`; and the connector's private
configuration keys never appear unless a map entry re-introduces them. -/
theorem mapped_entry_projects (p : ConnProps) (c : BindCache) (u w : PMap)
    (K D : String)
    (hm : p._propMap = some (u ++ (K, JSVal.vstr D) :: w))
    (hKD : K ≠ D) (hKr : K ≠ "ref")
    (hKo : getKey p.others K = none)
    (hKu : ∀ e ∈ u, writesKey K e = false)
    (hKw : ∀ e ∈ w, writesKey K e = false)
    (hDw : ∀ e ∈ w, writesKey D e = false)
    (hfn : asFun (p._store.get K) = none) :
    getKey (getPropsFromMap p c).1 D = some (p._store.get K) ∧
    getKey (getPropsFromMap p c).1 K = none ∧
    ∀ x ∈ (["_store", "_propMap", "_component", "_onMount", "_onUnmount"] :
        List String),
      (∀ e ∈ u ++ (K, JSVal.vstr D) :: w, writesKey x e = false) →
        getKey (getPropsFromMap p c).1 x = none := by
  rw [getPropsFromMap_eq, hm, Option.getD_some]
  refine ⟨?_, ?_, ?_⟩
  · rw [applyMap_append, applyMap_cons,
      getKey_applyMap_of_not_writes _ w _ D hDw,
      projectEntry_str_raw _ _ K D hfn]
    exact getKey_setKey_self _ _ _
  · have hKfull : ∀ e ∈ u ++ (K, JSVal.vstr D) :: w, writesKey K e = false := by
      intro e he
      rcases List.mem_append.mp he with h | h
      · exact hKu e h
      · rcases List.mem_cons.mp h with h | h
        · subst h
          simp only [writesKey]
          exact decide_eq_false (Ne.symm hKD)
        · exact hKw e h
    rw [getKey_applyMap_of_not_writes _ _ _ K hKfull, getKey_foldl_delKey]
    by_cases hmem : K ∈ privateKeys p._component.isSome
    · simp [hmem]
    · simp only [hmem, if_false]
      rw [getKey_setKey_ne _ _ _ _ hKr]
      exact hKo
  · intro x hx hxw
    rw [getKey_applyMap_of_not_writes _ _ _ x hxw, getKey_foldl_delKey]
    have hxp : x ∈ privateKeys p._component.isSome := by
      fin_cases hx <;> cases p._component.isSome <;> decide
    simp [hxp]

/-- Witness for C7's amended theorem on the spec's scenario:
store `get('X') -> 42`, map `{X: 'value'}`. -/
theorem mapped_entry_projects_witness :
    getKey (getPropsFromMap propsC7w emptyCache).1 "value" =
      some (JSVal.vnum 42) ∧
    getKey (getPropsFromMap propsC7w emptyCache).1 "X" = none := by
  have h := mapped_entry_projects propsC7w emptyCache [] [] "X" "value"
    rfl (by decide) (by decide) rfl (by simp) (by simp) (by simp) (by decide)
  exact ⟨h.1, h.2.1⟩

/-- C8: a callable store value mapped through the PropertyMap (to a
destination no later entry overwrites) is projected as its store-bound
version; the projected value is reference-identical across two consecutive
projections with no store change (the cache returns the same bound
reference), and invoking it executes the original callable with the store
as its `this` context. -/
theorem bound_function_stable (p : ConnProps) (c0 : BindCache) (u w : PMap)
    (K D : String) (i : Nat)
    (hm : p._propMap = some (u ++ (K, JSVal.vstr D) :: w))
    (hg : p._store.get K = JSVal.vfun i)
    (hw : ∀ e ∈ w, writesKey D e = false) :
    ∃ b : Nat,
      getKey (getPropsFromMap p c0).1 D =
        some (JSVal.vbound i p._store.sid b) ∧
      getKey (getPropsFromMap p (getPropsFromMap p c0).2).1 D =
        some (JSVal.vbound i p._store.sid b) ∧
      invoke (JSVal.vbound i p._store.sid b) = some (i, p._store.sid) := by
  rw [getPropsFromMap_eq, getPropsFromMap_eq, hm, Option.getD_some]
  have h1 := applyMap_vstr_fun p._store u w K D i
    ((privateKeys p._component.isSome).foldl delKey
      (setKey p.others "ref" p._forwardedRef), c0) hg hw
  obtain ⟨t1, ht1⟩ := h1.2
  refine ⟨_, h1.1, ?_, rfl⟩
  exact applyMap_vstr_fun_again p._store u w K D i _ _ c0 _ t1 hg hw ht1

/-- Witness for C8: mapping the callable `fn` (id 5) through
`{fn: 'onClick'}` twice from the empty cache yields the same bound
reference both times, and invoking it runs callable 5 with store 3 as
context. -/
theorem bound_function_stable_witness :
    ∃ b : Nat,
      getKey (getPropsFromMap propsC8 emptyCache).1 "onClick" =
        some (JSVal.vbound 5 3 b) ∧
      getKey (getPropsFromMap propsC8 (getPropsFromMap propsC8 emptyCache).2).1
          "onClick" = some (JSVal.vbound 5 3 b) ∧
      invoke (JSVal.vbound 5 3 b) = some (5, 3) :=
  bound_function_stable propsC8 emptyCache [] [] "fn" "onClick" 5
    rfl (by decide) (by simp)

/-- C9: in single-child mode, a child count other than one makes `render`
raise (`React.Children.only`) and produce nothing; with exactly one child,
that child is cloned with the projected props merged in (projection
overriding the child's own props where they collide). -/
theorem single_child_mode (p : ConnProps) (c : BindCache)
    (h : p._component = none) :
    (p.children.length ≠ 1 → ∃ msg, render p c = Except.error msg) ∧
    (∀ e, p.children = [e] →
      render p c = Except.ok (Rendered.clonedElement
        (cloneElement e (getPropsFromMap p c).1))) := by
  constructor
  · intro hn
    cases hc : p.children with
    | nil =>
      exact ⟨"React.Children.only expected to receive a single React element child.",
        by simp [render, h, hc, childrenOnly, Except.map]⟩
    | cons e t =>
      cases t with
      | nil => exact absurd (by simp [hc]) hn
      | cons e2 t2 =>
        exact ⟨"React.Children.only expected to receive a single React element child.",
          by simp [render, h, hc, childrenOnly, Except.map]⟩
  · intro e he
    simp [render, h, he, childrenOnly, Except.map, getPropsFromMap_eq]

/-- Witness for C9: zero children error, and one child cloned with the
projected props. -/
theorem single_child_mode_witness :
    (∃ msg, render propsC9zero emptyCache = Except.error msg) ∧
    render propsC9 emptyCache = Except.ok (Rendered.clonedElement
      (cloneElement elemA (getPropsFromMap propsC9 emptyCache).1)) :=
  ⟨(single_child_mode propsC9zero emptyCache rfl).1 (by decide),
   (single_child_mode propsC9 emptyCache rfl).2 elemA rfl⟩

end StoreConnector
